import Mathlib

/-!
Verification development for the quiz-webhook server (src/server.js).

The server exposes a webhook that validates a JSON payload, then runs a
background job which (1) resolves a PDF reference hidden in a quiz page via a
layered strategy chain (direct link, data URI, atob-literal scan, long base64
blob, embedded JSON) and (2) sums a "value" column from a table in the PDF's
page-2 text.

Embedding conventions:
* Strings are scanned as `List Char`; all JavaScript regular expressions used
  by the server are embedded as explicit character scanners that reproduce the
  engine's first-match / greedy / backtracking behaviour on the patterns used.
* Bytes (Node `Buffer`) are `List Nat` (each < 256 by construction).
* JavaScript numbers are modelled as `ℚ`.  Every numeric value appearing in a
  settled claim (100, -50.5, 1234.50, 120, 30, 150) is exactly representable
  as an IEEE-754 double and the additions involved are exact, so the rational
  model agrees with the double computation on those claims.
* File-system debug writes performed by the job never affect control flow
  (they are wrapped in try/catch in the source) and are omitted.
-/

/-! ## Character utilities -/

/-- Double-quote character. -/
def quoteD : Char := Char.ofNat 34

/-- Single-quote character. -/
def quoteS : Char := Char.ofNat 39

/-- Backtick character. -/
def quoteB : Char := Char.ofNat 96

/-- Backslash character. -/
def bslash : Char := Char.ofNat 92

/-- Opening curly brace character. -/
def lbrace : Char := Char.ofNat 123

/-- Closing curly brace character. -/
def rbrace : Char := Char.ofNat 125

/-- JavaScript's `\s` class (also used by `String.prototype.trim`): ASCII
whitespace, NBSP, BOM and the Unicode space separators. -/
def jsIsSpace (c : Char) : Bool :=
  let n := c.toNat
  n = 32 || (9 ≤ n && n ≤ 13) || n = 160 || n = 5760 ||
    (8192 ≤ n && n ≤ 8202) || n = 8232 || n = 8233 || n = 8239 ||
    n = 8287 || n = 12288 || n = 65279

/-- ASCII decimal digit test (regex `\d`). -/
def isDigit (c : Char) : Bool := 48 ≤ c.toNat && c.toNat ≤ 57

/-- ASCII letter test (regex `[A-Za-z]`). -/
def isAsciiLetter (c : Char) : Bool :=
  (65 ≤ c.toNat && c.toNat ≤ 90) || (97 ≤ c.toNat && c.toNat ≤ 122)

/-- Lower-case a character list.  The server only relies on case-insensitive
matching of ASCII patterns (`/i` flags, `toLowerCase`), for which
`Char.toLower` agrees with JavaScript. -/
def lowerChars (l : List Char) : List Char := l.map Char.toLower

/-- Does `needle` occur as a contiguous sublist of `hay`?  This embeds
JavaScript substring search (`String.prototype.includes`, or a `test` with a
literal pattern). -/
def containsSub (needle hay : List Char) : Bool :=
  match hay with
  | [] => needle.isEmpty
  | _ :: t => needle.isPrefixOf hay || containsSub needle t

/-- Strip every `\s` character (embeds `.replace(/\s+/g, '')`). -/
def stripWs (l : List Char) : List Char := l.filter (fun c => !jsIsSpace c)

/-- JavaScript `String.prototype.trim`. -/
def jsTrimChars (l : List Char) : List Char :=
  ((l.dropWhile jsIsSpace).reverse.dropWhile jsIsSpace).reverse

/-- `trim` on strings. -/
def jsTrim (s : String) : String := String.mk (jsTrimChars s.data)

/-! ## Base64 decoding (Node `Buffer.from(s, 'base64')`)

Node's decoder is lenient: characters outside the base64 alphabet are
skipped, decoding stops at `=` padding, and any trailing partial group
contributes its complete bytes.  All decoded inputs in the server are
whitespace-stripped base64, for which this is the standard decoding. -/

/-- Value of a base64 alphabet character. -/
def b64CharVal (c : Char) : Option Nat :=
  let n := c.toNat
  if 65 ≤ n && n ≤ 90 then some (n - 65)
  else if 97 ≤ n && n ≤ 122 then some (n - 97 + 26)
  else if 48 ≤ n && n ≤ 57 then some (n - 48 + 52)
  else if c = '+' then some 62
  else if c = '/' then some 63
  else none

/-- Collect the 6-bit values of a base64 string, skipping invalid characters
and stopping at the first `=`. -/
def collectSextets : List Char → List Nat
  | [] => []
  | c :: rest =>
    if c = '=' then []
    else
      match b64CharVal c with
      | some v => v :: collectSextets rest
      | none => collectSextets rest

/-- Pack 6-bit groups into bytes (4 sextets give 3 bytes, 3 give 2, 2 give 1). -/
def sextetsToBytes : List Nat → List Nat
  | a :: b :: c :: d :: rest =>
    (a * 4 + b / 16) :: ((b % 16) * 16 + c / 4) :: ((c % 4) * 64 + d) ::
      sextetsToBytes rest
  | [a, b, c] => [a * 4 + b / 16, (b % 16) * 16 + c / 4]
  | [a, b] => [a * 4 + b / 16]
  | _ => []

/-- Base64-decode a string to bytes. -/
def b64decode (s : String) : List Nat := sextetsToBytes (collectSextets s.data)

/-! ## UTF-8 decoding (Node `buf.toString('utf8')`)

Valid sequences decode exactly; malformed bytes yield U+FFFD.  (Node's
replacement-character policy for multi-byte malformed subsequences differs in
how many bytes each replacement consumes; every byte string examined by the
settled claims is pure ASCII, where the decoders agree exactly.) -/

/-- The U+FFFD replacement character. -/
def replChar : Char := Char.ofNat 65533

/-- Is a byte a UTF-8 continuation byte? -/
def isCont (b : Nat) : Bool := 128 ≤ b && b ≤ 191

/-- Fuel-indexed UTF-8 decoder; fuel bounds the number of bytes consumed. -/
def utf8DecodeAux : Nat → List Nat → List Char
  | 0, _ => []
  | _, [] => []
  | fuel + 1, b :: rest =>
    if b < 128 then Char.ofNat b :: utf8DecodeAux fuel rest
    else if 194 ≤ b && b ≤ 223 then
      match rest with
      | b2 :: rest2 =>
        if isCont b2 then
          Char.ofNat ((b - 192) * 64 + (b2 - 128)) :: utf8DecodeAux fuel rest2
        else replChar :: utf8DecodeAux fuel rest
      | [] => [replChar]
    else if 224 ≤ b && b ≤ 239 then
      match rest with
      | b2 :: b3 :: rest3 =>
        let lowOk :=
          if b = 224 then 160 ≤ b2 && b2 ≤ 191
          else if b = 237 then 128 ≤ b2 && b2 ≤ 159
          else isCont b2
        if lowOk && isCont b3 then
          Char.ofNat ((b - 224) * 4096 + (b2 - 128) * 64 + (b3 - 128)) ::
            utf8DecodeAux fuel rest3
        else replChar :: utf8DecodeAux fuel rest
      | _ => [replChar]
    else if 240 ≤ b && b ≤ 244 then
      match rest with
      | b2 :: b3 :: b4 :: rest4 =>
        let lowOk :=
          if b = 240 then 144 ≤ b2 && b2 ≤ 191
          else if b = 244 then 128 ≤ b2 && b2 ≤ 143
          else isCont b2
        if lowOk && isCont b3 && isCont b4 then
          Char.ofNat ((b - 240) * 262144 + (b2 - 128) * 4096 +
              (b3 - 128) * 64 + (b4 - 128)) :: utf8DecodeAux fuel rest4
        else replChar :: utf8DecodeAux fuel rest
      | _ => [replChar]
    else replChar :: utf8DecodeAux fuel rest

/-- Decode a byte list as UTF-8 text. -/
def utf8Decode (bs : List Nat) : List Char := utf8DecodeAux bs.length bs

/-- `buf.slice(0,4).toString() === '%PDF'` from the server: the first four
bytes of the buffer decode to the PDF magic signature. -/
def startsWithPDF (bs : List Nat) : Bool := utf8Decode (bs.take 4) = "%PDF".data

/-! ## JSON values and `JSON.parse`

`extractJsonBlock` in the server calls `JSON.parse`.  We embed a standard
strict JSON parser.  Numbers keep their source lexeme (the server never uses
a numeric field's value, only its truthiness). -/

/-- A parsed JSON value. -/
inductive Json where
  | null : Json
  | bool (b : Bool) : Json
  | num (raw : String) : Json
  | str (s : String) : Json
  | arr (elems : List Json) : Json
  | obj (fields : List (String × Json)) : Json

/-- JSON whitespace (strict: space, tab, LF, CR only). -/
def skipWs (l : List Char) : List Char :=
  l.dropWhile (fun c => c = ' ' || c.toNat = 9 || c.toNat = 10 || c.toNat = 13)

/-- Hexadecimal digit value. -/
def hexVal (c : Char) : Option Nat :=
  let n := c.toNat
  if 48 ≤ n && n ≤ 57 then some (n - 48)
  else if 97 ≤ n && n ≤ 102 then some (n - 97 + 10)
  else if 65 ≤ n && n ≤ 70 then some (n - 65 + 10)
  else none

/-- Parse the body of a JSON string (after the opening quote), returning the
string and the remaining input.  `acc` holds the characters read so far, in
reverse.  `\uXXXX` escapes outside the valid scalar range (and unpaired
surrogates, which no settled claim exercises) map through `Char.ofNat`. -/
def parseStringBody : Nat → List Char → List Char → Option (String × List Char)
  | 0, _, _ => none
  | _, [], _ => none
  | fuel + 1, c :: rest, acc =>
    if c = quoteD then some (String.mk acc.reverse, rest)
    else if c = bslash then
      match rest with
      | [] => none
      | e :: rest2 =>
        if e = quoteD then parseStringBody fuel rest2 (quoteD :: acc)
        else if e = bslash then parseStringBody fuel rest2 (bslash :: acc)
        else if e = '/' then parseStringBody fuel rest2 ('/' :: acc)
        else if e = 'b' then parseStringBody fuel rest2 (Char.ofNat 8 :: acc)
        else if e = 'f' then parseStringBody fuel rest2 (Char.ofNat 12 :: acc)
        else if e = 'n' then parseStringBody fuel rest2 (Char.ofNat 10 :: acc)
        else if e = 'r' then parseStringBody fuel rest2 (Char.ofNat 13 :: acc)
        else if e = 't' then parseStringBody fuel rest2 (Char.ofNat 9 :: acc)
        else if e = 'u' then
          match rest2 with
          | h1 :: h2 :: h3 :: h4 :: rest3 =>
            match hexVal h1, hexVal h2, hexVal h3, hexVal h4 with
            | some a, some b, some c3, some d =>
              parseStringBody fuel rest3
                (Char.ofNat (((a * 16 + b) * 16 + c3) * 16 + d) :: acc)
            | _, _, _, _ => none
          | _ => none
        else none
    else if c.toNat < 32 then none
    else parseStringBody fuel rest (c :: acc)

/-- Lex the fraction part of a JSON number (empty if no dot follows). -/
def lexFrac (l : List Char) : Option (List Char × List Char) :=
  match l with
  | c :: rest =>
    if c = '.' then
      let fs := rest.takeWhile isDigit
      if fs.isEmpty then none else some ('.' :: fs, rest.drop fs.length)
    else some ([], l)
  | [] => some ([], l)

/-- Lex the exponent part of a JSON number (empty if no `e`/`E` follows). -/
def lexExp (l : List Char) : Option (List Char × List Char) :=
  match l with
  | c :: rest =>
    if c = 'e' || c = 'E' then
      let (sgn, rest2) :=
        match rest with
        | s :: r => if s = '+' || s = '-' then ([s], r) else (([] : List Char), rest)
        | [] => (([] : List Char), rest)
      let ds := rest2.takeWhile isDigit
      if ds.isEmpty then none
      else some (c :: (sgn ++ ds), rest2.drop ds.length)
    else some ([], l)
  | [] => some ([], l)

/-- Lex a JSON number lexeme (strict grammar: no leading zeros, no bare dot). -/
def lexNumber (l : List Char) : Option (String × List Char) :=
  let (neg, l1) :=
    match l with
    | c :: rest => if c = '-' then (true, rest) else (false, l)
    | [] => (false, l)
  let ds := l1.takeWhile isDigit
  if ds.isEmpty then none
  else if 2 ≤ ds.length && ds.head? = some '0' then none
  else
    match lexFrac (l1.drop ds.length) with
    | none => none
    | some (frac, l2) =>
      match lexExp l2 with
      | none => none
      | some (ex, l3) =>
        some (String.mk ((if neg then ['-'] else []) ++ ds ++ frac ++ ex), l3)

mutual

/-- Parse one JSON value; fuel bounds nesting-driven recursion (each recursive
call consumes at least one input character first, so `length + 1` fuel always
suffices). -/
def parseValue : Nat → List Char → Option (Json × List Char)
  | 0, _ => none
  | fuel + 1, l =>
    match skipWs l with
    | [] => none
    | c :: rest =>
      if c = lbrace then
        match skipWs rest with
        | c2 :: rest2 =>
          if c2 = rbrace then some (Json.obj [], rest2)
          else parseMembers fuel (c2 :: rest2) []
        | [] => none
      else if c = '[' then
        match skipWs rest with
        | c2 :: rest2 =>
          if c2 = ']' then some (Json.arr [], rest2)
          else parseElems fuel (c2 :: rest2) []
        | [] => none
      else if c = quoteD then
        match parseStringBody (rest.length + 1) rest [] with
        | some (s, rest2) => some (Json.str s, rest2)
        | none => none
      else if c = 't' then
        if "rue".data.isPrefixOf rest then some (Json.bool true, rest.drop 3)
        else none
      else if c = 'f' then
        if "alse".data.isPrefixOf rest then some (Json.bool false, rest.drop 4)
        else none
      else if c = 'n' then
        if "ull".data.isPrefixOf rest then some (Json.null, rest.drop 3)
        else none
      else
        match lexNumber (c :: rest) with
        | some (raw, rest2) => some (Json.num raw, rest2)
        | none => none

/-- Parse the members of a JSON object (input starts at the first key). -/
def parseMembers : Nat → List Char → List (String × Json) →
    Option (Json × List Char)
  | 0, _, _ => none
  | fuel + 1, l, acc =>
    match skipWs l with
    | c :: rest =>
      if c = quoteD then
        match parseStringBody (rest.length + 1) rest [] with
        | some (key, rest2) =>
          match skipWs rest2 with
          | c2 :: rest3 =>
            if c2 = ':' then
              match parseValue fuel rest3 with
              | some (v, rest4) =>
                match skipWs rest4 with
                | c3 :: rest5 =>
                  if c3 = ',' then parseMembers fuel rest5 (acc ++ [(key, v)])
                  else if c3 = rbrace then
                    some (Json.obj (acc ++ [(key, v)]), rest5)
                  else none
                | [] => none
              | none => none
            else none
          | [] => none
        | none => none
      else none
    | [] => none

/-- Parse the elements of a JSON array (input starts at the first element). -/
def parseElems : Nat → List Char → List Json → Option (Json × List Char)
  | 0, _, _ => none
  | fuel + 1, l, acc =>
    match parseValue fuel l with
    | some (v, rest) =>
      match skipWs rest with
      | c :: rest2 =>
        if c = ',' then parseElems fuel rest2 (acc ++ [v])
        else if c = ']' then some (Json.arr (acc ++ [v]), rest2)
        else none
      | [] => none
    | none => none

end

/-- `JSON.parse`: parse a complete JSON document (trailing content other than
whitespace is an error). -/
def jsonParse (s : String) : Option Json :=
  match parseValue (s.length + 1) s.data with
  | some (v, rest) => if (skipWs rest).isEmpty then some v else none
  | none => none

/-- Truthiness of a number lexeme: zero iff its mantissa has no nonzero digit.
(Double underflow of tiny nonzero lexemes to `0` is not modelled; no claim
involves numeric field values at all.) -/
def numTruthy (raw : String) : Bool :=
  (raw.data.takeWhile (fun c => c ≠ 'e' && c ≠ 'E')).any
    (fun c => 49 ≤ c.toNat && c.toNat ≤ 57)

/-- JavaScript truthiness of a JSON value. -/
def jsTruthy : Json → Bool
  | Json.null => false
  | Json.bool b => b
  | Json.num raw => numTruthy raw
  | Json.str s => s ≠ ""
  | Json.arr _ => true
  | Json.obj _ => true

/-- Property access `parsed[key]` on a parsed JSON value: only objects have
(string-keyed) own properties; with duplicate keys `JSON.parse` keeps the
last occurrence, which the fold reproduces. -/
def getField (j : Json) (key : String) : Option Json :=
  match j with
  | Json.obj fields =>
    fields.foldl (fun acc kv => if kv.1 = key then some kv.2 else acc) none
  | _ => none

/-- The field's value when it is present and a string. -/
def getStrField (j : Json) (key : String) : Option String :=
  match getField j key with
  | some (Json.str s) => some s
  | _ => none

/-- Remove a field from an object (used to compare a payload against the same
payload with the field absent). -/
def eraseField (j : Json) (key : String) : Json :=
  match j with
  | Json.obj fields => Json.obj (fields.filter (fun kv => kv.1 ≠ key))
  | other => other

/-! ECMAScript string coercion of JSON-parsed values, as performed by
`/\.pdf/i.test(x)` on a non-string argument: strings coerce to themselves,
booleans and `null` to their keywords, objects to `[object Object]`, and an
array joins its elements' coercions with commas (a `null` element
contributes the empty string).  A number's coercion is approximated by its
source lexeme: JavaScript may format it differently (`1e2` prints as `100`),
but every formatting of a number consists of digits, sign, dot and exponent
characters only, so the two agree on every `.pdf`-containment test. -/

mutual

/-- ECMAScript `ToString` of a JSON-parsed value (see the section comment). -/
def jsToString : Json → String
  | Json.str s => s
  | Json.num raw => raw
  | Json.bool b => if b then "true" else "false"
  | Json.null => "null"
  | Json.obj _ => "[object Object]"
  | Json.arr elems => jsArrJoin elems

/-- `Array.prototype.join(',')` under `ToString` coercion. -/
def jsArrJoin : List Json → String
  | [] => ""
  | [Json.null] => ""
  | [x] => jsToString x
  | Json.null :: rest => "," ++ jsArrJoin rest
  | x :: rest => jsToString x ++ "," ++ jsArrJoin rest

end

/-! ## Reference-resolver scans (src/server.js lines 24-55 and 92-262) -/

/-- `/\.pdf(\?|$)/i.test(href)` — the direct-link document-extension test:
the string contains `.pdf?` or ends with `.pdf`, case-insensitively. -/
def isPdfHref (s : String) : Bool :=
  let lc := lowerChars s.data
  containsSub ".pdf?".data lc || ".pdf".data.isSuffixOf lc

/-- `/\.pdf/i.test(s)` — the looser test used on JSON `url`/`file` fields. -/
def containsPdfSub (s : String) : Bool := containsSub ".pdf".data (lowerChars s.data)

/-- A character that ends a URL match (regex class `[^\s'"]` complement). -/
def isUrlStop (c : Char) : Bool := jsIsSpace c || c = quoteS || c = quoteD

/-- Try `/https?:\/\/[^\s'"]+\.pdf[^\s'"]*/i` anchored at the current
position.  After the scheme the engine consumes the maximal run of
non-stop characters; backtracking succeeds iff `.pdf` occurs inside that run
at offset at least one, and the trailing `[^\s'"]*` then extends the match to
the end of the run.  Returns the matched substring (original characters). -/
def matchPdfUrlAt (l : List Char) : Option (List Char) :=
  let ll := lowerChars l
  let plen : Nat :=
    if "https://".data.isPrefixOf ll then 8
    else if "http://".data.isPrefixOf ll then 7
    else 0
  if plen = 0 then none
  else
    let run := (l.drop plen).takeWhile (fun c => !isUrlStop c)
    if containsSub ".pdf".data ((lowerChars run).drop 1) then
      some (l.take (plen + run.length))
    else none

/-- First match of the PDF-URL regex in the text (the engine tries each start
position left to right). -/
def findPdfUrl : List Char → Option String
  | [] => none
  | c :: rest =>
    match matchPdfUrlAt (c :: rest) with
    | some m => some (String.mk m)
    | none => findPdfUrl rest

/-- The literal prefix of the data-URI pattern. -/
def dataPdfMark : List Char := "data:application/pdf;base64,".data

/-- The capture class of the data-URI and long-blob patterns:
`[A-Za-z0-9+/=\r\n]`. -/
def isB64Class (c : Char) : Bool :=
  isAsciiLetter c || isDigit c || c = '+' || c = '/' || c = '=' ||
    c.toNat = 13 || c.toNat = 10

/-- `findDataPdfInText` (server lines 25-29): first match of
`/data:application\/pdf;base64,([A-Za-z0-9+/=\r\n]+)/i`; the captured payload
is returned with whitespace stripped (`m[1].replace(/\s+/g, '')`).  A prefix
occurrence followed by no capture-class character is not a match and the
engine moves on. -/
def findDataPdfInText : List Char → Option String
  | [] => none
  | c :: rest =>
    let l := c :: rest
    if dataPdfMark.isPrefixOf (lowerChars (l.take dataPdfMark.length)) then
      let run := (l.drop dataPdfMark.length).takeWhile isB64Class
      if run.isEmpty then findDataPdfInText rest
      else some (String.mk (stripWs run))
    else findDataPdfInText rest

/-- Scan for the closing quote of an atob literal.  The lazy group
`[\s\S]*?` extends past a candidate closing quote unless that quote is
followed by `\s*\)`; `acc` holds the literal's characters so far in reverse.
Returns the literal (quotes stripped, as the server does) and the input
remaining after the closing parenthesis. -/
def scanLit (q : Char) : List Char → List Char → Option (String × List Char)
  | [], _ => none
  | c :: rest, acc =>
    if c = q then
      match rest.dropWhile jsIsSpace with
      | c2 :: rest2 =>
        if c2 = ')' then some (String.mk acc.reverse, rest2)
        else scanLit q rest (c :: acc)
      | [] => scanLit q rest (c :: acc)
    else scanLit q rest (c :: acc)

/-- Try `/atob\(\s*(`…`|"…"|'…')\s*\)/` anchored at the current position
(the pattern is case-sensitive; the alternation branch is fixed by the
opening quote character). -/
def matchAtobAt (l : List Char) : Option (String × List Char) :=
  if "atob(".data.isPrefixOf l then
    match (l.drop 5).dropWhile jsIsSpace with
    | q :: rest =>
      if q = quoteD || q = quoteS || q = quoteB then scanLit q rest []
      else none
    | [] => none
  else none

/-- All atob literals in text order (server lines 174-184): the `g`-flag loop
resumes after each full match and otherwise advances one position. -/
def findAtobAux : Nat → List Char → List String
  | 0, _ => []
  | _, [] => []
  | fuel + 1, c :: rest =>
    match matchAtobAt (c :: rest) with
    | some (lit, after) => lit :: findAtobAux fuel after
    | none => findAtobAux fuel rest

/-- The list of atob string literals found in the combined text. -/
def findAtobLiterals (l : List Char) : List String := findAtobAux l.length l

/-- Maximal runs of capture-class characters, in text order; `cur` holds the
current run in reverse. -/
def b64RunsAux : List Char → List Char → List (List Char)
  | [], cur => if cur.isEmpty then [] else [cur.reverse]
  | c :: rest, cur =>
    if isB64Class c then b64RunsAux rest (c :: cur)
    else if cur.isEmpty then b64RunsAux rest []
    else cur.reverse :: b64RunsAux rest []

/-- The maximal runs of `[A-Za-z0-9+/=\r\n]` characters in the text. -/
def b64Runs (l : List Char) : List (List Char) := b64RunsAux l []

/-- `findLongBase64Blob` (server lines 32-44): the `g`-flag loop visits each
maximal run of at least 200 capture-class characters; the first whose
whitespace-stripped form has length at least `minLen` is returned (stripped).
After stripping, the run consists of base64 alphabet characters only, so the
`/^[A-Za-z0-9+/=]+$/` sanity test always passes.  The job calls this with
`minLen = 300`. -/
def findLongBase64Blob (txt : List Char) (minLen : Nat) : Option String :=
  ((b64Runs txt).filterMap fun r =>
    if 200 ≤ r.length then
      let cand := stripWs r
      if minLen ≤ cand.length then some (String.mk cand) else none
    else none).head?

/-- The single greedy match of `/\{[\s\S]*\}/`: the span from the first
opening brace to the last closing brace of the text (not the first balanced
block). -/
def extractBraceSpan (l : List Char) : Option (List Char) :=
  let after := l.dropWhile (fun c => c ≠ lbrace)
  let upto := (after.reverse.dropWhile (fun c => c ≠ rbrace)).reverse
  if 2 ≤ upto.length then some upto else none

/-- `extractJsonBlock` (server lines 47-55): `JSON.parse` applied to the
greedy brace span; parse failure yields `null`. -/
def extractJsonBlock (l : List Char) : Option Json :=
  (extractBraceSpan l).bind (fun span => jsonParse (String.mk span))

/-- Modelled from the spec: the spec's sections 4.1.2c and 4.1.2e describe
parsing "the first top-level `{...}` block" of a text; this refinement
companion takes the first opening brace and its balancing closing brace
(brace counting, not string-aware) and parses that span, for comparison with
`extractJsonBlock`, whose single greedy regex match runs to the *last*
closing brace of the whole text. -/
def takeBalanced : List Char → Nat → List Char → Option (List Char)
  | [], _, _ => none
  | c :: rest, depth, acc =>
    if c = lbrace then takeBalanced rest (depth + 1) (c :: acc)
    else if c = rbrace then
      if depth = 1 then some (c :: acc).reverse
      else takeBalanced rest (depth - 1) (c :: acc)
    else takeBalanced rest depth (c :: acc)

/-- Modelled from the spec: parse the first top-level brace-delimited block
(see `takeBalanced`). -/
def extractFirstJsonBlockSpec (l : List Char) : Option Json :=
  (takeBalanced (l.dropWhile (fun c => c ≠ lbrace)) 0 []).bind
    (fun span => jsonParse (String.mk span))

/-- Check a parsed value's `url` then `file` field for `.pdf` in the JSON
scan (server lines 246-252), whose conditions carry an explicit
`typeof ... === 'string'` guard: only a truthy *string* field containing
`.pdf` is accepted (the empty string is falsy, and cannot contain `.pdf`
anyway); any other field value falls through to the `file` check. -/
def jsonUrlFile (j : Json) : Option String :=
  match getStrField j "url" with
  | some u =>
    if containsPdfSub u then some u
    else
      match getStrField j "file" with
      | some f => if containsPdfSub f then some f else none
      | none => none
  | none =>
    match getStrField j "file" with
    | some f => if containsPdfSub f then some f else none
    | none => none

/-- Check a parsed value's `url` then `file` field for `.pdf` in the atob
branch (server lines 212-214), which has *no* `typeof` guard: the field must
be truthy and its ECMAScript string coercion must contain `.pdf`; the
accepted result is the field's raw value, which need not be a string (for
example `["a.pdf"]` coerces to `a.pdf` and passes).  On strings this agrees
with `jsonUrlFile`. -/
def jsonUrlFileCoerce (j : Json) : Option Json :=
  match getField j "url" with
  | some v =>
    if jsTruthy v && containsPdfSub (jsToString v) then some v
    else
      match getField j "file" with
      | some w =>
        if jsTruthy w && containsPdfSub (jsToString w) then some w else none
      | none => none
  | none =>
    match getField j "file" with
    | some w =>
      if jsTruthy w && containsPdfSub (jsToString w) then some w else none
    | none => none

/-! ## The resolution pipeline (server lines 92-262) -/

/-- A resolved document reference: a URL to fetch, or decoded in-memory
bytes.  (The server materialises decoded bytes as a `file://` temp path and
reads the same buffer back before parsing, so the buffer itself is the
resolution result.)  `malformedUrl` records the one way the unguarded atob
JSON branch can end resolution with a non-string value: the code assigns it
to `pdfUrl` and breaks the loop, and the job later throws on
`pdfUrl.startsWith` and aborts, so no document is ever fetched from it. -/
inductive ResolvedReference where
  | remoteUrl (url : String) : ResolvedReference
  | inlineBytes (bytes : List Nat) : ResolvedReference
  | malformedUrl (v : Json) : ResolvedReference

/-- One iteration of the atob-literal loop (server lines 186-220): strip
whitespace, base64-decode, accept as bytes on the `%PDF` magic; otherwise
search the decoded text for a PDF URL, then for a `url`/`file` field of its
greedy JSON block via the unguarded, string-coercing test — a string field
becomes a `RemoteUrl`, while a non-string field that passes the coercion
test still stops the loop, carrying the raw value (`malformedUrl`).
`Buffer.from(..., 'base64')` never throws, so the per-candidate catch only
swallows JSON-extraction failures, which `extractJsonBlock` already maps to
`none`. -/
def atobStep (lit : String) : Option ResolvedReference :=
  let buf := b64decode (String.mk (stripWs lit.data))
  if startsWithPDF buf then some (ResolvedReference.inlineBytes buf)
  else
    let txt := utf8Decode buf
    match findPdfUrl txt with
    | some u => some (ResolvedReference.remoteUrl u)
    | none =>
      match extractJsonBlock txt with
      | some parsed =>
        match jsonUrlFileCoerce parsed with
        | some (Json.str u) => some (ResolvedReference.remoteUrl u)
        | some v => some (ResolvedReference.malformedUrl v)
        | none => none
      | none => none

/-- The atob-literal loop: first literal that yields a reference wins. -/
def atobScan : List String → Option ResolvedReference
  | [] => none
  | lit :: rest =>
    match atobStep lit with
    | some r => some r
    | none => atobScan rest

/-- The long-blob strategy (server lines 222-241): decode the first
qualifying blob and accept only on the `%PDF` magic; a failed magic check
ends the strategy without trying further blobs. -/
def longBlobScan (txt : List Char) : Option ResolvedReference :=
  match findLongBase64Blob txt 300 with
  | some blob =>
    let buf := b64decode blob
    if startsWithPDF buf then some (ResolvedReference.inlineBytes buf) else none
  | none => none

/-- The JSON-block strategy (server lines 243-261). -/
def jsonScan (txt : List Char) : Option ResolvedReference :=
  match extractJsonBlock txt with
  | some parsed =>
    match jsonUrlFile parsed with
    | some u => some (ResolvedReference.remoteUrl u)
    | none => none
  | none => none

/-- The script-harvesting stage on a built combined search text: data-URI
scan, then atob scan, then long-blob scan, then JSON scan; each stage runs
only if every earlier stage produced nothing. -/
def scanCombinedText (txt : String) : Option ResolvedReference :=
  match findDataPdfInText txt.data with
  | some payload => some (ResolvedReference.inlineBytes (b64decode payload))
  | none =>
    match atobScan (findAtobLiterals txt.data) with
    | some r => some r
    | none =>
      match longBlobScan txt.data with
      | some r => some r
      | none => jsonScan txt.data

/-- Inputs harvested from the quiz page: anchor links as (text, href) pairs,
inline script bodies, external script source URLs (in DOM order) and the
rendered body text. -/
structure PageArtifacts where
  links : List (String × String)
  inlineScripts : List String
  externalScriptSources : List String
  bodyText : String

/-- Strategy 1 (server lines 93-99): the first anchor whose href passes the
document-extension test; failing that, the first standalone PDF URL in the
body text. -/
def directScan (arts : PageArtifacts) : Option String :=
  match arts.links.find? (fun l => isPdfHref l.2) with
  | some l => some l.2
  | none => findPdfUrl arts.bodyText.data

/-- Build the combined search text (server lines 122-148): inline scripts
joined by a blank line, each successfully fetched external script appended,
then the body text.  `fetchBody` models the HTTP fetch collaborator applied
to a script source (URL resolution against the page URL included); `none`
covers both a thrown fetch error and a non-OK status, which are skipped. -/
def buildCombinedText (arts : PageArtifacts)
    (fetchBody : String → Option String) : String :=
  let inline := String.intercalate "\n\n" arts.inlineScripts
  let withScripts := arts.externalScriptSources.foldl
    (fun acc src =>
      match fetchBody src with
      | some t => acc ++ "\n\n" ++ t
      | none => acc)
    inline
  withScripts ++ "\n\n" ++ arts.bodyText

/-- Observable outcome of one resolution attempt: the reference found (if
any), how many external script fetches were issued, and the combined search
text if script harvesting was entered at all. -/
structure ResolveOutcome where
  result : Option ResolvedReference
  externalFetches : Nat
  combined : Option String

/-- The resolver (server lines 92-262): the direct scan short-circuits
script harvesting entirely; otherwise the combined text is built (one fetch
per external script source) and scanned. -/
def resolve (arts : PageArtifacts) (fetchBody : String → Option String) :
    ResolveOutcome :=
  match directScan arts with
  | some url =>
    { result := some (ResolvedReference.remoteUrl url)
      externalFetches := 0
      combined := none }
  | none =>
    let c := buildCombinedText arts fetchBody
    { result := scanCombinedText c
      externalFetches := arts.externalScriptSources.length
      combined := some c }

/-! ## Table summation engine (server lines 344-385) -/

/-- Split a character list on a separator character (JS `split` semantics:
empty pieces are kept). -/
def splitOnChar (sep : Char) (l : List Char) : List (List Char) :=
  l.foldr
    (fun c acc =>
      if c = sep then [] :: acc
      else
        match acc with
        | h :: t => (c :: h) :: t
        | [] => [[c]])
    [[]]

/-- `pageText.split(/\r?\n/)`: split on newlines, where an immediately
preceding carriage return belongs to the separator. -/
def splitLines (s : String) : List String :=
  (splitOnChar (Char.ofNat 10) s.data).map fun piece =>
    match piece.reverse with
    | c :: rest => if c.toNat = 13 then String.mk rest.reverse else String.mk piece
    | [] => ""

/-- `split(/\r?\n/).map(l => l.trim()).filter(Boolean)` (server line 345). -/
def linesOf (s : String) : List String :=
  ((splitLines s).map jsTrim).filter (fun l => l ≠ "")

/-- `line.split(/\s{2,}/)`: fields separated by runs of two or more
whitespace characters (a single whitespace character stays inside a field).
`pend` holds pending whitespace and `cur` the current field, both reversed. -/
def splitColsAux : List Char → List Char → List Char → List (List Char)
  | [], pend, cur =>
    if 2 ≤ pend.length then [cur.reverse, []] else [(pend ++ cur).reverse]
  | c :: rest, pend, cur =>
    if jsIsSpace c then splitColsAux rest (c :: pend) cur
    else if 2 ≤ pend.length then cur.reverse :: splitColsAux rest [] [c]
    else splitColsAux rest [] (c :: (pend ++ cur))

/-- Field split of a line on two-or-more-whitespace runs. -/
def splitCols (s : String) : List String :=
  (splitColsAux s.data [] []).map String.mk

/-- Header test (server line 352): the line contains the token `value`
case-insensitively and splits into at least two fields. -/
def isHeaderLine (line : String) : Bool :=
  containsSub "value".data (lowerChars line.data) && 2 ≤ (splitCols line).length

/-- End-of-table test (server line 358): the line consists solely of
letters, whitespace and hyphens, and segments into at most one field. -/
def isProseLine (line : String) : Bool :=
  !line.data.isEmpty &&
    line.data.all (fun c => isAsciiLetter c || jsIsSpace c || c = '-') &&
    (splitCols line).length ≤ 1

/-- Natural value of a digit run. -/
def digitsToNat (ds : List Char) : Nat :=
  ds.foldl (fun a c => a * 10 + (c.toNat - 48)) 0

/-- Match `\d+(\.\d+)?` anchored here: greedy digits, then a fraction only
when a dot is followed by at least one digit.  Exact rational value of the
matched numeral (`parseFloat` of such a numeral; exact for the doubles
arising in the settled claims). -/
def numFromDigits (l : List Char) : Option ℚ :=
  let ds := l.takeWhile isDigit
  if ds.isEmpty then none
  else
    let whole : ℚ := (digitsToNat ds : ℚ)
    match l.drop ds.length with
    | c :: r2 =>
      if c = '.' then
        let fs := r2.takeWhile isDigit
        if fs.isEmpty then some whole
        else some (whole + (digitsToNat fs : ℚ) / ((10 : ℚ) ^ fs.length))
      else some whole
    | [] => some whole

/-- Match `-?\d+(\.\d+)?` anchored at the current position. -/
def scanNumAt (l : List Char) : Option ℚ :=
  match l with
  | c :: rest => if c = '-' then (numFromDigits rest).map Neg.neg else numFromDigits l
  | [] => none

/-- First match of the pattern `-?\d+(\.\d+)?` in the text. -/
def findFirstNumber : List Char → Option ℚ
  | [] => none
  | c :: rest =>
    match scanNumAt (c :: rest) with
    | some q => some q
    | none => findFirstNumber rest

/-- `raw.replace(/[,₹$€£]/g, '')`: strip commas and the four currency
symbols. -/
def stripCurrency (l : List Char) : List Char :=
  l.filter (fun c => !(c = ',' || c = '₹' || c = '$' || c = '€' || c = '£'))

/-- Value cell parsing (server lines 361-366): strip currency symbols and
separators, trim, extract the first signed decimal number.  The matched
numeral always parses (`parseFloat` of a regex match is never `NaN`), so an
unparsable cell is exactly a cell with no match. -/
def parseCell (cell : String) : Option ℚ :=
  findFirstNumber (jsTrimChars (stripCurrency cell.data))

/-- The data-row loop (server lines 356-368): consume lines after the header
until the first prose line; each consumed row with a field at the value
column index contributes its parsed cell value (unparsable cells contribute
nothing).  The index is an `Int` because `findIndex` yields `-1` on a miss. -/
def rowsSum : List String → Int → ℚ
  | [], _ => 0
  | line :: rest, idx =>
    if isProseLine line then 0
    else
      let cols := (splitCols line).map jsTrim
      let contribution : ℚ :=
        match (if 0 ≤ idx then cols.get? idx.toNat else none) with
        | some cell =>
          match parseCell cell with
          | some q => q
          | none => 0
        | none => 0
      contribution + rowsSum rest idx

/-- The header-scan loop (server lines 350-371): the first header line wins;
its field list is trimmed and lowercased, and the value column is the first
field containing `value`.  Returns `none` when no header line exists. -/
def tableScan : List String → Option ℚ
  | [] => none
  | line :: rest =>
    if isHeaderLine line then
      let headers := (splitCols line).map (fun h => String.mk (lowerChars (jsTrim h).data))
      let idx : Int :=
        match headers.findIdx? (fun h => containsSub "value".data h.data) with
        | some n => (n : Int)
        | none => -1
      some (rowsSum rest idx)
    else tableScan rest

/-- Match `-?\d{1,3}(?:[,.\d]*\d)?` anchored at the current position,
returning the token and the remaining input.  The optional group greedily
extends through `[,.\d]` characters but must end on a digit, so it takes the
following class run truncated at its last digit. -/
def fallbackTokenAt (l : List Char) : Option (List Char × List Char) :=
  let core : List Char → Option (List Char × List Char) := fun l1 =>
    let d1 := (l1.takeWhile isDigit).take 3
    if d1.isEmpty then none
    else
      let l2 := l1.drop d1.length
      let run := l2.takeWhile (fun c => c = ',' || c = '.' || isDigit c)
      let ext := (run.reverse.dropWhile (fun c => !isDigit c)).reverse
      some (d1 ++ ext, l2.drop ext.length)
  match l with
  | c :: rest =>
    if c = '-' then
      match core rest with
      | some (tok, after) => some ('-' :: tok, after)
      | none => none
    else core l
  | [] => none

/-- All fallback number tokens in text order (`g`-flag loop of server line
375); fuel is the input length, sufficient since every match consumes at
least one character. -/
def fallbackTokensAux : Nat → List Char → List (List Char)
  | 0, _ => []
  | _, [] => []
  | fuel + 1, c :: rest =>
    match fallbackTokenAt (c :: rest) with
    | some (tok, after) => tok :: fallbackTokensAux fuel after
    | none => fallbackTokensAux fuel rest

/-- The `g`-flag matches of the pattern `-?\d{1,3}(?:[,.\d]*\d)?` over the page text. -/
def fallbackTokens (l : List Char) : List (List Char) :=
  fallbackTokensAux l.length l

/-- The fallback sum (server lines 373-382): every token, commas stripped,
parsed by `parseFloat` (which reads the longest numeric prefix — relevant
when a token carries a second decimal point) and summed. -/
def fallbackSum (l : List Char) : ℚ :=
  ((fallbackTokens l).map fun tok => scanNumAt (tok.filter (fun c => c ≠ ','))).foldl
    (fun acc o =>
      match o with
      | some q => acc + q
      | none => acc)
    0

/-- The summation engine on one page's text: table-column sum when a header
line exists, otherwise the all-numbers fallback. -/
def engineSum (pageText : String) : ℚ :=
  match tableScan (linesOf pageText) with
  | some s => s
  | none => fallbackSum pageText.data

/-- `Math.round`: round half towards positive infinity. -/
def jsRound (q : ℚ) : ℚ := (⌊q + 1 / 2⌋ : ℤ)

/-- `parseFloat(sum.toFixed(6))`: round to six decimal places (half away
from zero; exact whenever the sum times `10 ^ 6` is an integer, as in every
settled claim). -/
def toFixed6 (q : ℚ) : ℚ :=
  if q < 0 then -(((⌊-q * 1000000 + 1 / 2⌋ : ℤ) : ℚ) / 1000000)
  else ((⌊q * 1000000 + 1 / 2⌋ : ℤ) : ℚ) / 1000000

/-- The final answer (server line 384): an integral sum is returned as the
integer, otherwise the sum is rounded to six decimals. -/
def computeAnswer (pageText : String) : ℚ :=
  let s := engineSum pageText
  if jsRound s = s then jsRound s else toFixed6 s

/-! ## Webhook validation (server lines 18-22 and 57-62) -/

/-- The first validation line `!body || typeof body !== 'object'` inverted:
the body is truthy and of type `object` (which in JavaScript includes
arrays; `null` is of type `object` but falsy). -/
def bodyIsObject (body : Json) : Bool :=
  jsTruthy body &&
    (match body with
     | Json.obj _ => true
     | Json.arr _ => true
     | Json.null => true
     | _ => false)

/-- Truthiness of a body field (`body.email` etc.); an absent property is
`undefined`, which is falsy. -/
def fieldTruthy (body : Json) (key : String) : Bool :=
  match getField body key with
  | some v => jsTruthy v
  | none => false

/-- `validatePayload` (server lines 18-22). -/
def validatePayload (body : Json) : Bool :=
  bodyIsObject body && fieldTruthy body "email" && fieldTruthy body "secret" &&
    fieldTruthy body "url"

/-- `payload.secret !== APP_SECRET` inverted: strict equality against the
configured secret holds exactly when the field is that very string. -/
def secretMatches (body : Json) (appSecret : String) : Bool :=
  match getField body "secret" with
  | some (Json.str s) => s = appSecret
  | _ => false

/-- The three synchronous webhook responses. -/
inductive WebhookResponse where
  | badRequest : WebhookResponse
  | forbidden : WebhookResponse
  | accepted : WebhookResponse
deriving DecidableEq

/-- The webhook handler's synchronous behaviour (server lines 57-64): the
response sent, paired with whether the background job is spawned (the job is
spawned only after the 200 response is sent). -/
def webhook (body : Json) (appSecret : String) : WebhookResponse × Bool :=
  if !validatePayload body then (WebhookResponse.badRequest, false)
  else if !secretMatches body appSecret then (WebhookResponse.forbidden, false)
  else (WebhookResponse.accepted, true)

/-! ## Helper lemmas -/

set_option maxRecDepth 8000

/-- A run of the atob loop skips every literal that yields nothing. -/
theorem atobScan_append_of_none (pre rest : List String)
    (h : ∀ l ∈ pre, atobStep l = none) :
    atobScan (pre ++ rest) = atobScan rest := by
  induction pre with
  | nil => rfl
  | cons p ps ih =>
    have hp : atobStep p = none := h p (by simp)
    simp only [List.cons_append, atobScan, hp]
    exact ih (fun l hl => h l (by simp [hl]))

/-- The header loop returns nothing when no line passes the header test. -/
theorem tableScan_none_of_no_header (lines : List String)
    (h : ∀ line ∈ lines, isHeaderLine line = false) :
    tableScan lines = none := by
  induction lines with
  | nil => rfl
  | cons l ls ih =>
    have hl : isHeaderLine l = false := h l (by simp)
    simp only [tableScan, hl, Bool.false_eq_true, if_false]
    exact ih (fun x hx => h x (by simp [hx]))

/-- The `getField` fold ignores entries whose key differs. -/
theorem getField_foldl_skip (key : String) (fields : List (String × Json))
    (a : Option Json) (h : ∀ kv ∈ fields, kv.1 ≠ key) :
    fields.foldl (fun acc kv => if kv.1 = key then some kv.2 else acc) a = a := by
  induction fields generalizing a with
  | nil => rfl
  | cons kv rest ih =>
    simp only [List.foldl_cons]
    rw [if_neg (h kv (by simp))]
    exact ih a (fun x hx => h x (by simp [hx]))

/-- Erasing a field really removes it. -/
theorem getField_erase (j : Json) (key : String) :
    getField (eraseField j key) key = none := by
  cases j with
  | obj fields =>
    simp only [eraseField, getField]
    refine getField_foldl_skip key _ none (fun kv hkv => ?_)
    have := List.of_mem_filter hkv
    simpa using this
  | null => rfl
  | bool b => rfl
  | num raw => rfl
  | str s => rfl
  | arr elems => rfl

/-! ## Claim C1 -/

/-- C1: a `PageArtifacts` whose links contain an href matching the
document-extension pattern resolves, via the direct-link scan, to that link's
exact href as a `RemoteUrl` — with zero external script fetches and no
combined search text ever built (script harvesting is not entered). -/
theorem direct_link_short_circuit (arts : PageArtifacts)
    (fetchBody : String → Option String)
    (h : ∃ l ∈ arts.links, isPdfHref l.2 = true) :
    ∃ l, arts.links.find? (fun x => isPdfHref x.2) = some l ∧
      isPdfHref l.2 = true ∧
      resolve arts fetchBody =
        { result := some (ResolvedReference.remoteUrl l.2)
          externalFetches := 0
          combined := none } := by
  obtain ⟨l0, hmem, hp⟩ := h
  have hs : (arts.links.find? (fun x => isPdfHref x.2)).isSome := by
    rw [List.find?_isSome]
    exact ⟨l0, hmem, hp⟩
  obtain ⟨l, hl⟩ := Option.isSome_iff_exists.mp hs
  have hpl : isPdfHref l.2 = true :=
    @List.find?_some (String × String) (fun x => isPdfHref x.2) l arts.links hl
  refine ⟨l, hl, hpl, ?_⟩
  simp [resolve, directScan, hl]

/-- Concrete page for the C1 witness. -/
def artsW1 : PageArtifacts :=
  { links := [("doc", "http://x/a.pdf")]
    inlineScripts := ["var a = 1;"]
    externalScriptSources := ["http://x/s.js"]
    bodyText := "quiz" }

/-- C1 witness: on a concrete page with a direct `.pdf` link, resolution
returns that URL, fetches nothing and builds no combined text. -/
theorem direct_link_short_circuit_witness :
    (∃ l ∈ artsW1.links, isPdfHref l.2 = true) ∧
    ∃ l, artsW1.links.find? (fun x => isPdfHref x.2) = some l ∧
      isPdfHref l.2 = true ∧
      resolve artsW1 (fun _ => some "atob(\"JVBERg==\")") =
        { result := some (ResolvedReference.remoteUrl l.2)
          externalFetches := 0
          combined := none } :=
  ⟨⟨("doc", "http://x/a.pdf"), by decide, by decide⟩,
    direct_link_short_circuit artsW1 (fun _ => some "atob(\"JVBERg==\")")
      ⟨("doc", "http://x/a.pdf"), by decide, by decide⟩⟩

/-! ## Claim C2 -/

/-- C2: whenever the combined search text contains a PDF data URI, the
harvesting stage returns `InlineBytes` equal to the base64 decoding of the
whitespace-stripped captured payload — unconditionally, with no magic-byte
check (the theorem needs no hypothesis about the decoded bytes). -/
theorem data_uri_inline_bytes (txt payload : String)
    (h : findDataPdfInText txt.data = some payload) :
    scanCombinedText txt =
      some (ResolvedReference.inlineBytes (b64decode payload)) := by
  unfold scanCombinedText
  rw [h]

/-- C2 witness: a data URI whose payload decodes to `hello` — bytes that do
not start with `%PDF` — is still accepted as `InlineBytes`. -/
theorem data_uri_inline_bytes_witness :
    findDataPdfInText "data:application/pdf;base64,aGVs\r\nbG8= x".data =
        some "aGVsbG8=" ∧
    b64decode "aGVsbG8=" = [104, 101, 108, 108, 111] ∧
    startsWithPDF (b64decode "aGVsbG8=") = false ∧
    scanCombinedText "data:application/pdf;base64,aGVs\r\nbG8= x" =
      some (ResolvedReference.inlineBytes (b64decode "aGVsbG8=")) :=
  ⟨rfl, rfl, rfl, data_uri_inline_bytes _ _ rfl⟩

/-! ## Claim C3 -/

/-- C3 (amended): in the runtime-decode-call scan, literals are tried in text
order; if every earlier literal yields nothing, the first literal whose
whitespace-stripped decoding begins with `%PDF` makes the scan return
`InlineBytes` with exactly those decoded bytes, independently of whatever
literals follow (they are never decoded).  A literal whose decoding does not
begin with `%PDF` is instead searched for a document URL and then for a
`url`/`file` field of the greedy first-brace-to-last-brace span of its
decoded text parsed as JSON (not of its first top-level block — see the
counterexample); that field test has no `typeof` guard: a truthy field whose
string coercion contains `.pdf` stops the scan — a string field becomes the
`RemoteUrl`, while a non-string field is carried as the resolution result
as-is (and crashes the job before any download).  Only a literal yielding
none of these lets scanning continue to the next literal. -/
theorem atob_scan_first_magic_wins :
    (∀ (pre : List String) (b : String) (post : List String),
      (∀ l ∈ pre, atobStep l = none) →
      startsWithPDF (b64decode (String.mk (stripWs b.data))) = true →
      atobScan (pre ++ b :: post) =
        some (ResolvedReference.inlineBytes
          (b64decode (String.mk (stripWs b.data))))) ∧
    (∀ (l : String) (rest : List String) (u : String),
      startsWithPDF (b64decode (String.mk (stripWs l.data))) = false →
      findPdfUrl (utf8Decode (b64decode (String.mk (stripWs l.data)))) = some u →
      atobScan (l :: rest) = some (ResolvedReference.remoteUrl u)) ∧
    (∀ (l : String) (rest : List String) (j : Json) (u : String),
      startsWithPDF (b64decode (String.mk (stripWs l.data))) = false →
      findPdfUrl (utf8Decode (b64decode (String.mk (stripWs l.data)))) = none →
      extractJsonBlock (utf8Decode (b64decode (String.mk (stripWs l.data)))) =
        some j →
      jsonUrlFileCoerce j = some (Json.str u) →
      atobScan (l :: rest) = some (ResolvedReference.remoteUrl u)) ∧
    (∀ (l : String) (rest : List String) (j v : Json),
      startsWithPDF (b64decode (String.mk (stripWs l.data))) = false →
      findPdfUrl (utf8Decode (b64decode (String.mk (stripWs l.data)))) = none →
      extractJsonBlock (utf8Decode (b64decode (String.mk (stripWs l.data)))) =
        some j →
      jsonUrlFileCoerce j = some v →
      (∀ u, v ≠ Json.str u) →
      atobScan (l :: rest) = some (ResolvedReference.malformedUrl v)) ∧
    (∀ (l : String) (rest : List String),
      atobStep l = none → atobScan (l :: rest) = atobScan rest) := by
  refine ⟨?_, ?_, ?_, ?_, ?_⟩
  · intro pre b post hpre hmagic
    rw [atobScan_append_of_none pre (b :: post) hpre]
    simp only [atobScan, atobStep, hmagic, if_true]
  · intro l rest u hmagic hurl
    simp only [atobScan, atobStep, hmagic, Bool.false_eq_true, if_false, hurl]
  · intro l rest j u hmagic hurl hjson hfield
    simp only [atobScan, atobStep, hmagic, Bool.false_eq_true, if_false, hurl,
      hjson, hfield]
  · intro l rest j v hmagic hurl hjson hfield hns
    cases v <;>
      first
        | exact absurd rfl (hns _)
        | simp only [atobScan, atobStep, hmagic, Bool.false_eq_true, if_false,
            hurl, hjson, hfield]
  · intro l rest hstep
    simp only [atobScan, hstep]

/-- The atob literal of the C3 counterexample: base64 of a decoded text whose
first top-level JSON block carries a `file` field ending in `.pdf`, followed
by a second (empty) block. -/
def litC3 : String := "eyJmaWxlIjoiYS5wZGYifSB7fQ=="

/-- A combined text containing exactly one atob call on `litC3`. -/
def txtC3 : String := "atob(\"eyJmaWxlIjoiYS5wZGYifSB7fQ==\")"

/-- C3 counterexample: the claim says a non-`%PDF` literal is searched for a
`url`/`file` field "in its first JSON block".  Here the literal's decoded
text is `{"file":"a.pdf"} {}` (rendered with braces): its first top-level
block parses to an object whose `file` field matches the document-extension
pattern, so under the claim the scan would return that `RemoteUrl`; but the
code applies `JSON.parse` to the greedy span from the first brace to the
*last* brace, which is not valid JSON, so the whole resolution yields
nothing. -/
theorem atob_json_block_counterexample :
    findAtobLiterals txtC3.data = [litC3] ∧
    startsWithPDF (b64decode (String.mk (stripWs litC3.data))) = false ∧
    findPdfUrl (utf8Decode (b64decode (String.mk (stripWs litC3.data)))) = none ∧
    extractFirstJsonBlockSpec
        (utf8Decode (b64decode (String.mk (stripWs litC3.data)))) =
      some (Json.obj [("file", Json.str "a.pdf")]) ∧
    jsonUrlFile (Json.obj [("file", Json.str "a.pdf")]) = some "a.pdf" ∧
    isPdfHref "a.pdf" = true ∧
    atobScan [litC3] = none ∧
    scanCombinedText txtC3 = none :=
  ⟨rfl, rfl, rfl, rfl, rfl, rfl, rfl, rfl⟩

/-- The atob literal of the coercion example: base64 of a decoded text whose
`url` field is the array `["a.pdf"]` (rendered with brackets), which the
unguarded test accepts by string coercion. -/
def litC3b : String := "eyJ1cmwiOlsiYS5wZGYiXX0="

/-- C3 witness: with no earlier literals, a literal decoding to `%PDF` bytes
is accepted as those exact bytes, and a following literal is irrelevant; and
a literal whose greedy JSON span has a non-string `url` field passing the
coercion test stops the scan with that raw value — the `%PDF` literal after
it is never decoded. -/
theorem atob_scan_first_magic_wins_witness :
    (atobScan ["JVBERg==", litC3] =
      some (ResolvedReference.inlineBytes [37, 80, 68, 70])) ∧
    (atobScan [litC3b, "JVBERg=="] =
      some (ResolvedReference.malformedUrl (Json.arr [Json.str "a.pdf"]))) := by
  constructor
  · have h := atob_scan_first_magic_wins.1 [] "JVBERg==" [litC3]
      (by intro l hl; cases hl) (by decide)
    exact h.trans rfl
  · exact atob_scan_first_magic_wins.2.2.2.1 litC3b ["JVBERg=="]
      (Json.obj [("url", Json.arr [Json.str "a.pdf"])])
      (Json.arr [Json.str "a.pdf"]) rfl rfl rfl rfl
      (fun u hu => Json.noConfusion hu)

/-! ## Claim C4 -/

/-- C4: when the first qualifying long base64 blob of the combined text does
not decode to `%PDF`-leading bytes, the long-blob strategy yields nothing and
no further blob is tried; resolution falls through to the embedded-structure
scan (so the harvesting result is exactly the JSON scan's result, which is
`NotFound` when that too fails). -/
theorem long_blob_discard_no_retry (txt : String) (c : String)
    (h1 : findDataPdfInText txt.data = none)
    (h2 : atobScan (findAtobLiterals txt.data) = none)
    (h3 : findLongBase64Blob txt.data 300 = some c)
    (h4 : startsWithPDF (b64decode c) = false) :
    longBlobScan txt.data = none ∧ scanCombinedText txt = jsonScan txt.data := by
  have hlb : longBlobScan txt.data = none := by
    simp only [longBlobScan, h3, h4, Bool.false_eq_true, if_false]
  refine ⟨hlb, ?_⟩
  unfold scanCombinedText
  rw [h1, h2, hlb]

/-- A combined text that is one long non-PDF base64 blob (300 `A`s). -/
def strA : String := String.mk (List.replicate 300 'A')

/-- C4 witness: 300 `A`s form the first (and only) qualifying blob; they
decode to zero bytes, so the strategy discards them and the whole resolution
returns nothing. -/
theorem long_blob_discard_no_retry_witness :
    findLongBase64Blob strA.data 300 = some strA ∧
    startsWithPDF (b64decode strA) = false ∧
    longBlobScan strA.data = none ∧
    scanCombinedText strA = none := by
  have h := long_blob_discard_no_retry strA strA rfl rfl rfl rfl
  exact ⟨rfl, rfl, h.1, h.2.trans rfl⟩

/-! ## Claim C5 -/

/-- The C5 counterexample text: a first top-level JSON block with a matching
`url` field, followed by a second (empty) block. -/
def txtC5 : String := "\x7b\"url\":\"http://h/a.pdf\"\x7d \x7b\x7d"

/-- C5 counterexample: the claim says the embedded-structure scan parses the
*first top-level* brace block.  Here that block is valid JSON whose `url`
string field matches the document-extension pattern, so under the claim the
scan would return `RemoteUrl "http://h/a.pdf"`; but `extractJsonBlock`
applies `JSON.parse` to the single greedy regex span running to the *last*
closing brace of the text, which fails to parse, and resolution returns
nothing. -/
theorem json_block_greedy_counterexample :
    extractFirstJsonBlockSpec txtC5.data =
      some (Json.obj [("url", Json.str "http://h/a.pdf")]) ∧
    jsonUrlFile (Json.obj [("url", Json.str "http://h/a.pdf")]) =
      some "http://h/a.pdf" ∧
    isPdfHref "http://h/a.pdf" = true ∧
    findDataPdfInText txtC5.data = none ∧
    findAtobLiterals txtC5.data = [] ∧
    longBlobScan txtC5.data = none ∧
    extractJsonBlock txtC5.data = none ∧
    scanCombinedText txtC5 = none :=
  ⟨rfl, rfl, rfl, rfl, rfl, rfl, rfl, rfl⟩

/-- C5 (amended): the embedded-structure scan applies `JSON.parse` to the
span from the first `\x7b` to the last `\x7d` of the combined text (one
greedy regex match, which coincides with the first top-level block only when
no later closing brace follows it); when that span is valid JSON with a
`url` or `file` string field containing `.pdf`, and every earlier strategy
produced nothing, resolution returns that field's value as a `RemoteUrl`. -/
theorem json_scan_greedy_span (txt : String) (j : Json) (u : String)
    (h1 : findDataPdfInText txt.data = none)
    (h2 : atobScan (findAtobLiterals txt.data) = none)
    (h3 : longBlobScan txt.data = none)
    (h4 : extractJsonBlock txt.data = some j)
    (h5 : jsonUrlFile j = some u) :
    scanCombinedText txt = some (ResolvedReference.remoteUrl u) := by
  simp only [scanCombinedText, jsonScan, h1, h2, h3, h4, h5]

/-- The C5 witness text: exactly one brace block, so the greedy span is that
block. -/
def txtW5 : String := "\x7b\"url\":\"http://h/a.pdf\"\x7d"

/-- C5 witness: on a combined text whose only brace block is valid JSON with
a matching `url` field, the scan returns that URL. -/
theorem json_scan_greedy_span_witness :
    extractJsonBlock txtW5.data =
      some (Json.obj [("url", Json.str "http://h/a.pdf")]) ∧
    scanCombinedText txtW5 =
      some (ResolvedReference.remoteUrl "http://h/a.pdf") :=
  ⟨rfl, json_scan_greedy_span txtW5
    (Json.obj [("url", Json.str "http://h/a.pdf")]) "http://h/a.pdf"
    rfl rfl rfl rfl rfl⟩

/-! ## Claim C6 -/

/-- The C6 page text, exactly as in the claim. -/
def pageC6 : String :=
  "Item          Value\nApples        100\nBananas       -50.5\nEnd of report"

/-- C6: on the four-line page, the first line is the header (it contains
`value` case-insensitively and splits into two fields, of which the second
carries the token), the two fruit rows are consumed (neither is a prose
line), consumption stops at `End of report` (letters and single spaces only,
one field), and the engine returns exactly `49.5`. -/
theorem table_sum_concrete :
    linesOf pageC6 =
      ["Item          Value", "Apples        100", "Bananas       -50.5",
        "End of report"] ∧
    isHeaderLine "Item          Value" = true ∧
    isProseLine "Apples        100" = false ∧
    isProseLine "Bananas       -50.5" = false ∧
    isProseLine "End of report" = true ∧
    engineSum pageC6 = 99 / 2 ∧
    computeAnswer pageC6 = 99 / 2 := by
  refine ⟨rfl, rfl, rfl, rfl, rfl, ?_, ?_⟩
  · with_unfolding_all rfl
  · with_unfolding_all rfl

/-! ## Claim C7 -/

/-- C7: when no line of the page passes the header test, the engine's result
is the fallback sum of every numeric-looking token of the whole page text;
in particular the claim's example page sums to `150`. -/
theorem fallback_sums_all_tokens :
    (∀ txt : String,
      (∀ line ∈ linesOf txt, isHeaderLine line = false) →
      engineSum txt = fallbackSum txt.data) ∧
    fallbackSum "Total cost: 120, tax: 30".data = 150 ∧
    engineSum "Total cost: 120, tax: 30" = 150 ∧
    computeAnswer "Total cost: 120, tax: 30" = 150 := by
  refine ⟨?_, ?_, ?_, ?_⟩
  · intro txt h
    unfold engineSum
    rw [tableScan_none_of_no_header (linesOf txt) h]
  · with_unfolding_all rfl
  · with_unfolding_all rfl
  · with_unfolding_all rfl

/-- C7 witness: the claim's example page has no header line, so the theorem
applies to it and gives the fallback sum. -/
theorem fallback_sums_all_tokens_witness :
    engineSum "Total cost: 120, tax: 30" =
      fallbackSum "Total cost: 120, tax: 30".data :=
  fallback_sums_all_tokens.1 "Total cost: 120, tax: 30" (by decide)

/-! ## Claim C8 -/

/-- C8: a consumed data row (not a prose line) whose cell at the value
column index is `₹1,234.50` contributes exactly `1234.50` to the running
sum: the currency symbol and the comma are stripped and the first signed
decimal is extracted; a row whose cell parses to nothing contributes
nothing, without error. -/
theorem currency_cell_contribution :
    parseCell "₹1,234.50" = some (2469 / 2) ∧
    (∀ (line : String) (rest : List String) (idx : Nat),
      isProseLine line = false →
      ((splitCols line).map jsTrim).get? idx = some "₹1,234.50" →
      rowsSum (line :: rest) (idx : Int) =
        2469 / 2 + rowsSum rest (idx : Int)) ∧
    (∀ (line : String) (rest : List String) (idx : Nat) (cell : String),
      isProseLine line = false →
      ((splitCols line).map jsTrim).get? idx = some cell →
      parseCell cell = none →
      rowsSum (line :: rest) (idx : Int) = rowsSum rest (idx : Int)) := by
  have hp : parseCell "₹1,234.50" = some (2469 / 2) := by with_unfolding_all rfl
  refine ⟨hp, ?_, ?_⟩
  · intro line rest idx hprose hget
    simp only [rowsSum, hprose, Bool.false_eq_true, if_false,
      Int.ofNat_nonneg, if_true, Int.toNat_natCast, hget, hp]
  · intro line rest idx cell hprose hget hcell
    simp only [rowsSum, hprose, Bool.false_eq_true, if_false,
      Int.ofNat_nonneg, if_true, Int.toNat_natCast, hget, hcell]
    exact zero_add _

/-- C8 witness: a concrete one-row table slice with the claim's cell in
column 1. -/
theorem currency_cell_contribution_witness :
    rowsSum ["Tea  ₹1,234.50"] ((1 : Nat) : Int) = 2469 / 2 := by
  have h := currency_cell_contribution.2.1 "Tea  ₹1,234.50" [] 1
    (by decide) (by decide)
  exact h.trans (by with_unfolding_all rfl)

/-! ## Claim C9 -/

/-- C9: the webhook responds 400 whenever the body fails the object check or
any of the three required fields fails the truthiness check (in particular
whenever a field is absent, by the fourth conjunct); it responds 403 when
validation passes but the secret field is not the configured string; it
responds 200 (and only then starts the background job) when validation
passes and the secret matches.  The response type has exactly these three
alternatives, so exactly one outcome occurs per request. -/
theorem webhook_response_trichotomy (body : Json) (appSecret : String) :
    ((bodyIsObject body = false ∨ fieldTruthy body "email" = false ∨
        fieldTruthy body "secret" = false ∨ fieldTruthy body "url" = false) →
      webhook body appSecret = (WebhookResponse.badRequest, false)) ∧
    (validatePayload body = true → secretMatches body appSecret = false →
      webhook body appSecret = (WebhookResponse.forbidden, false)) ∧
    (validatePayload body = true → secretMatches body appSecret = true →
      webhook body appSecret = (WebhookResponse.accepted, true)) ∧
    (∀ key : String, getField body key = none → fieldTruthy body key = false) ∧
    ((webhook body appSecret).2 = true ↔
      (webhook body appSecret).1 = WebhookResponse.accepted) := by
  refine ⟨?_, ?_, ?_, ?_, ?_⟩
  · intro h
    have hv : validatePayload body = false := by
      unfold validatePayload
      rcases h with h | h | h | h <;> simp [h]
    simp [webhook, hv]
  · intro hv hs
    simp [webhook, hv, hs]
  · intro hv hs
    simp [webhook, hv, hs]
  · intro key hk
    simp [fieldTruthy, hk]
  · unfold webhook
    by_cases h1 : validatePayload body <;>
      by_cases h2 : secretMatches body appSecret <;> simp [h1, h2]

/-- A fully valid webhook body. -/
def bodyW9 : Json :=
  Json.obj [("email", Json.str "e"), ("secret", Json.str "s"),
    ("url", Json.str "u")]

/-- C9 witness: a valid body with the matching secret is accepted and the
job starts. -/
theorem webhook_response_trichotomy_witness :
    validatePayload bodyW9 = true ∧ secretMatches bodyW9 "s" = true ∧
    webhook bodyW9 "s" = (WebhookResponse.accepted, true) :=
  ⟨rfl, rfl, (webhook_response_trichotomy bodyW9 "s").2.2.1 rfl rfl⟩

/-! ## Claim C10 -/

/-- C10: a request body in which one of the required fields is present but
falsy (empty string, `0`, `false` or `null`) is rejected with 400 without
starting the job, exactly as if the field were absent: the webhook's outcome
on the body equals its outcome on the same body with the field removed. -/
theorem falsy_field_as_missing (body : Json) (appSecret key : String)
    (v : Json) (hk : key = "email" ∨ key = "secret" ∨ key = "url")
    (hget : getField body key = some v) (hfalsy : jsTruthy v = false) :
    webhook body appSecret = (WebhookResponse.badRequest, false) ∧
    webhook body appSecret = webhook (eraseField body key) appSecret := by
  have hft : fieldTruthy body key = false := by simp [fieldTruthy, hget, hfalsy]
  have hv : validatePayload body = false := by
    unfold validatePayload
    rcases hk with rfl | rfl | rfl <;> simp [hft]
  have hfe : fieldTruthy (eraseField body key) key = false := by
    simp [fieldTruthy, getField_erase]
  have hve : validatePayload (eraseField body key) = false := by
    unfold validatePayload
    rcases hk with rfl | rfl | rfl <;> simp [hfe]
  constructor
  · simp [webhook, hv]
  · simp [webhook, hv, hve]

/-- A body whose `email` field is present but the empty string. -/
def bodyW10 : Json :=
  Json.obj [("email", Json.str ""), ("secret", Json.str "s"),
    ("url", Json.str "u")]

/-- C10 witness: the empty-`email` body is rejected with 400, identically to
the same body with `email` removed. -/
theorem falsy_field_as_missing_witness :
    getField bodyW10 "email" = some (Json.str "") ∧
    webhook bodyW10 "s" = (WebhookResponse.badRequest, false) ∧
    webhook bodyW10 "s" = webhook (eraseField bodyW10 "email") "s" := by
  have h := falsy_field_as_missing bodyW10 "s" "email" (Json.str "")
    (Or.inl rfl) rfl rfl
  exact ⟨rfl, h.1, h.2⟩
